import Mathlib

/-!
Verification of the PDF batching and medical-event extraction pipeline.

The development shallowly embeds the pipeline: `src/pdf.py` (document
batching, OCR response parsing, annotation) and `src/agents.py` /
`src/tools.py` / `src/prompts.py` (the forced-function-call extraction
agent), together with the `submission.py` entrypoint.  Machine strings are
lists of characters (or Lean `String`s for keys and prompts), Python
exceptions are an explicit error type propagated through `Except`, and
subscripting follows Python slice and index semantics.  The two network
backends (the OCR service and the generative model) are black-box
function parameters, as the spec treats them.
-/

namespace PipelineVerif

/-- Python runtime exceptions that the embedded code can raise. -/
inductive PyExn where
  | indexError
  | keyError
deriving DecidableEq, Repr

/-- Resolve one Python slice endpoint against a sequence of length `len`:
a negative index counts from the end, and both ends are clamped into
`[0, len]`. -/
def pyResolve (len : Nat) (i : Int) : Nat :=
  if i < 0 then ((len : Int) + i).toNat else min i.toNat len

/-- Python slice `s[a:b]` on a list of characters: clamped, never raising. -/
def pySlice (s : List Char) (a b : Int) : List Char :=
  (s.take (pyResolve s.length b)).drop (pyResolve s.length a)

/-- Python `l[i]` for a nonnegative index: raises `IndexError` out of range. -/
def pyIndex {α : Type} (l : List α) (i : Nat) : Except PyExn α :=
  match l.get? i with
  | some a => .ok a
  | none => .error .indexError

end PipelineVerif

namespace PipelineVerif.Pdf

open PipelineVerif

/-- Embeds `Block` (src/schemas.py lines 4-6): normalized vertex list and text. -/
structure Block where
  vertices : List (ℚ × ℚ)
  text : List Char
deriving DecidableEq, Repr

/-- Embeds `Page` (src/schemas.py lines 9-10). -/
structure Page where
  blocks : List Block
deriving DecidableEq, Repr

/-- Embeds `ParsedDocument` (src/schemas.py lines 13-14). -/
structure ParsedDocument where
  pages : List Page
deriving DecidableEq, Repr

/-- One text segment of a DocumentAI text anchor: character offsets into
the backend's document-wide text. -/
structure TextSegment where
  start_index : Int
  end_index : Int
deriving DecidableEq, Repr

/-- A DocumentAI text anchor: a list of text segments. -/
structure TextAnchor where
  text_segments : List TextSegment
deriving DecidableEq, Repr

/-- A DocumentAI bounding polygon with normalized vertices. -/
structure BoundingPoly where
  normalized_vertices : List (ℚ × ℚ)
deriving DecidableEq, Repr

/-- A DocumentAI block layout: its text anchor and bounding polygon. -/
structure Layout where
  text_anchor : TextAnchor
  bounding_poly : BoundingPoly
deriving DecidableEq, Repr

/-- A block of a DocumentAI response page. -/
structure DocBlock where
  layout : Layout
deriving DecidableEq, Repr

/-- A page of a DocumentAI response. -/
structure DocPage where
  blocks : List DocBlock
deriving DecidableEq, Repr

/-- The OCR backend's returned `Document`: the document-wide extracted
text plus the page list (the fields of `google.cloud.documentai_v1.Document`
that src/pdf.py reads). -/
structure Document where
  text : List Char
  pages : List DocPage
deriving DecidableEq, Repr

/-- Embeds `DocumentParser.MAX_PAGES_PER_REQUEST` (src/pdf.py line 34). -/
def MAX_PAGES_PER_REQUEST : Nat := 15

/-- The batching loop of `DocumentParser.process_document`
(src/pdf.py lines 55-56): `for start_page in range(0, total_pages, ceiling)`
with `end_page = min(start_page + ceiling, total_pages)`, the ceiling being
`MAX_PAGES_PER_REQUEST` at the call site.  Returns the traversed
`(start_page, end_page)` windows, starting from `start`. -/
def batchWindows (start total ceiling : Nat) : List (Nat × Nat) :=
  if h : 0 < ceiling ∧ start < total then
    (start, min (start + ceiling) total) :: batchWindows (start + ceiling) total ceiling
  else
    []
termination_by total - start
decreasing_by omega

/-- The full window sequence produced by the batching loop of
`process_document`, from page 0. -/
def splitWindows (total ceiling : Nat) : List (Nat × Nat) :=
  batchWindows 0 total ceiling

/-- Embeds `DocumentParser.get_text` (src/pdf.py lines 120-139): reads the first
text segment of the anchor (`text_segments[0]`, raising `IndexError` when
there is none) and returns `document.text[start_index:end_index]`. -/
def get_text (document : Document) (text_anchor : TextAnchor) : Except PyExn (List Char) :=
  match text_anchor.text_segments with
  | [] => .error .indexError
  | seg :: _ => .ok (pySlice document.text seg.start_index seg.end_index)

/-- The inner block loop of `DocumentParser.parse_document`
(src/pdf.py lines 112-116): each backend block becomes a `Block` carrying
its normalized vertices and its anchor-resolved text, appended in order. -/
def parse_blocks (document : Document) : List DocBlock → Except PyExn (List Block)
  | [] => .ok []
  | b :: bs =>
    match get_text document b.layout.text_anchor with
    | .error e => .error e
    | .ok text =>
      match parse_blocks document bs with
      | .error e => .error e
      | .ok rest => .ok (⟨b.layout.bounding_poly.normalized_vertices, text⟩ :: rest)

/-- The page loop of `DocumentParser.parse_document`
(src/pdf.py lines 110-118): one `Page` per backend page, in order. -/
def parse_pages (document : Document) : List DocPage → Except PyExn (List Page)
  | [] => .ok []
  | p :: ps =>
    match parse_blocks document p.blocks with
    | .error e => .error e
    | .ok blocks =>
      match parse_pages document ps with
      | .error e => .error e
      | .ok rest => .ok (⟨blocks⟩ :: rest)

/-- Embeds `DocumentParser.parse_document` (src/pdf.py lines 96-118). -/
def parse_document (document : Document) : Except PyExn (List Page) :=
  parse_pages document document.pages

/-- Embeds `DocumentParser.process_batch` (src/pdf.py lines 62-94): extracts the
pages `[start_page, end_page)` of the source PDF into a standalone
sub-PDF, sends it to the OCR backend, and parses the response with
`parse_document`.  The PDF splitting and network round-trip are the
black-box `backend` parameter, mapping the batch page range to the
backend's returned `Document`. -/
def process_batch (backend : Nat → Nat → Document) (start_page end_page : Nat) :
    Except PyExn (List Page) :=
  parse_document (backend start_page end_page)

/-- The body of the batching loop of `process_document` (src/pdf.py lines
54-58) over an explicit window list: `parsed_pages.extend(batch_pages)`
for each window in order, propagating any exception. -/
def processLoop (backend : Nat → Nat → Document) : List (Nat × Nat) → Except PyExn (List Page)
  | [] => .ok []
  | w :: ws =>
    match process_batch backend w.1 w.2 with
    | .error e => .error e
    | .ok batch_pages =>
      match processLoop backend ws with
      | .error e => .error e
      | .ok rest => .ok (batch_pages ++ rest)

/-- Embeds `DocumentParser.process_document` (src/pdf.py lines 36-60): computes the
windows of `total_pages` pages at ceiling `MAX_PAGES_PER_REQUEST`, processes
every batch in window order, and assembles the `ParsedDocument`.
`total_pages` (read from the PDF by PyPDF2) is a parameter. -/
def process_document (backend : Nat → Nat → Document) (total_pages : Nat) :
    Except PyExn ParsedDocument :=
  match processLoop backend (splitWindows total_pages MAX_PAGES_PER_REQUEST) with
  | .error e => .error e
  | .ok parsed_pages => .ok ⟨parsed_pages⟩

/-- The character `.` used by the annotation label suffix `"..."`. -/
def chr46 : Char := Char.ofNat 46

/-- A `fitz.Rect` as built by `PDFAnnotator.draw_block`. -/
structure FitzRect where
  x0 : ℚ
  y0 : ℚ
  x1 : ℚ
  y1 : ℚ
deriving DecidableEq, Repr

/-- The drawing operations `PDFAnnotator.draw_block` performs on a page. -/
inductive DrawCmd where
  | drawRect (r : FitzRect)
  | insertText (x y : ℚ) (label : List Char)
deriving DecidableEq, Repr

/-- Embeds `PDFAnnotator.draw_block` (src/pdf.py lines 146-180): reads
`block.vertices[0]` and `block.vertices[2]`, scales them by the page's
pixel width and height into a rectangle, draws it, and inserts the label
`block.text[:20] + "..."` at `(rect.x0, rect.y0 - 5)`. -/
def draw_block (page_width page_height : ℚ) (block : Block) :
    Except PyExn (List DrawCmd) :=
  match pyIndex block.vertices 0 with
  | .error e => .error e
  | .ok (x0, y0) =>
    match pyIndex block.vertices 2 with
    | .error e => .error e
    | .ok (x1, y1) =>
      let rect : FitzRect :=
        ⟨x0 * page_width, y0 * page_height, x1 * page_width, y1 * page_height⟩
      .ok [DrawCmd.drawRect rect,
           DrawCmd.insertText rect.x0 (rect.y0 - 5) (block.text.take 20 ++ [chr46, chr46, chr46])]

/-- The block loop of `PDFAnnotator.annotate_document` (src/pdf.py lines
182-193) on one page: draw every block of the page in order.  `page_width`
and `page_height` are the pixel dimensions of the fitz page. -/
def annotatePage (page_width page_height : ℚ) : List Block → Except PyExn (List DrawCmd)
  | [] => .ok []
  | b :: bs =>
    match draw_block page_width page_height b with
    | .error e => .error e
    | .ok cmds =>
      match annotatePage page_width page_height bs with
      | .error e => .error e
      | .ok rest => .ok (cmds ++ rest)

/-- Embeds `PDFAnnotator.annotate_document` (src/pdf.py lines 182-193): draw every
block of every page, in page order; `dims n` gives page `n`'s pixel
dimensions. -/
def annotate_document (dims : Nat → ℚ × ℚ) (parsed_document : ParsedDocument) :
    Except PyExn (List DrawCmd) :=
  (parsed_document.pages.zip (List.range parsed_document.pages.length)).foldr
    (fun (pg, n) acc =>
      match annotatePage (dims n).1 (dims n).2 pg.blocks with
      | .error e => .error e
      | .ok cmds =>
        match acc with
        | .error e => .error e
        | .ok rest => .ok (cmds ++ rest))
    (.ok [])

end PipelineVerif.Pdf

namespace PipelineVerif.Agents

open PipelineVerif

/-- The type field of a `genai.protos.Schema` as used in src/tools.py. -/
inductive SchemaType where
  | STRING
  | OBJECT
  | ARRAY
deriving DecidableEq, Repr

/-- Embeds `genai.protos.Schema` restricted to the fields src/tools.py sets:
type, properties, required, items. -/
inductive GSchema where
  | mk (type_ : SchemaType) (properties : List (String × GSchema))
       (required : List String) (items : Option GSchema)

/-- The declared type of a schema. -/
def GSchema.type_ : GSchema → SchemaType
  | .mk t _ _ _ => t

/-- The declared properties of a schema. -/
def GSchema.properties : GSchema → List (String × GSchema)
  | .mk _ p _ _ => p

/-- The required property names of a schema. -/
def GSchema.required : GSchema → List String
  | .mk _ _ r _ => r

/-- The item schema of an array schema. -/
def GSchema.items : GSchema → Option GSchema
  | .mk _ _ _ i => i

/-- A bare string-typed schema, `genai.protos.Schema(type=STRING)`. -/
def stringSchema : GSchema := .mk .STRING [] [] none

/-- Embeds `event` (src/tools.py lines 5-25): an OBJECT schema with the six
required string fields of a medical event. -/
def event : GSchema :=
  .mk .OBJECT
    [("date", stringSchema),
     ("description", stringSchema),
     ("medical_findings", stringSchema),
     ("diagnoses", stringSchema),
     ("new_orders", stringSchema),
     ("follow_up_actions", stringSchema)]
    ["date", "description", "medical_findings", "diagnoses", "new_orders",
     "follow_up_actions"]
    none

/-- Embeds `events` (src/tools.py line 27): an ARRAY schema of `event` items. -/
def events : GSchema := .mk .ARRAY [] [] (some event)

/-- Embeds `genai.protos.FunctionDeclaration` as used in src/tools.py. -/
structure FunctionDeclaration where
  name : String
  description : String
  parameters : GSchema

/-- Embeds `add_to_database` (src/tools.py lines 31-37): the single tool handed to
the generative model. -/
def add_to_database : FunctionDeclaration :=
  ⟨"add_to_database", "Inserts entries into the database.",
   .mk .OBJECT [("events", events)] [] none⟩

/-- A JSON-like value, the shape of decoded function-call arguments. -/
inductive JValue where
  | s (value : String)
  | arr (values : List JValue)
  | obj (fields : List (String × JValue))

/-- The function call carried by a response part, after
`type(function_call).to_dict(function_call)`: its name and its `args`
dictionary.  An unset `args` field (omitted by `to_dict`) is modeled as the
empty dictionary; either way a missing `"events"` key raises `KeyError`. -/
structure FunctionCall where
  name : String
  args : List (String × JValue)

/-- A content part of a generative-model candidate.  `none` models a part
that carries no function call (the model answered with free text), in
which case the `to_dict` of the empty proto has no `"args"` entry and the
subscript raises `KeyError`. -/
structure Part where
  function_call : Option FunctionCall

/-- The content of a candidate. -/
structure Content where
  parts : List Part

/-- One candidate of a `GenerateContentResponse`. -/
structure Candidate where
  content : Content

/-- Embeds `genai.types.GenerateContentResponse`, restricted to what
`DocumentParser.__call__` reads. -/
structure GenerateContentResponse where
  candidates : List Candidate

/-- The tool configuration string passed as
`tool_config={"function_calling_config": ...}` (src/agents.py line 40). -/
inductive FunctionCallingConfig where
  | AUTO
  | ANY
  | NONE
deriving DecidableEq, Repr

/-- One request to the generative backend: the prompt, the tool
declarations the model was constructed with, and the tool configuration. -/
structure GenRequest where
  prompt : String
  tools : List FunctionDeclaration
  tool_config : FunctionCallingConfig

/-- The text of `PARSER_PROMPT_TEMPLATE` (src/prompts.py) before the
`{record}` placeholder. -/
def PARSER_PROMPT_TEMPLATE_head : String :=
  "\nThe following is the medical record of an inpatient at a hospital.\nThe record may consist of several distinct documents corresponding to\ndifferent events during a patient\x27s stay, such as a consultation by a medical\nprofessional, a diagnostic test, or administration of a therapy. In order to\nmake an insurance claim, we need to extract detailed information about each\nevent for our database, including\n* the date of the event, in MM-DD-YYYY format;\n* a description of the event;\n* all medical findings from the event;\n* diagnoses from the event, if any are made;\n* new orders for tests or treatments, if any are made;\n* follow-up actions, if any are recommended.\nPlease ignore all medical history that is not immediately applicable to the\npresent case. Also note that the record may not be in chronological order and\nsome information may be repeated across multiple pages. Here is the patient\x27s\nrecord: \n"

/-- Embeds `PARSER_PROMPT_TEMPLATE` (src/prompts.py lines 1-19). -/
def PARSER_PROMPT_TEMPLATE : String :=
  PARSER_PROMPT_TEMPLATE_head ++ "{record}" ++ "\n"

/-- Embeds `PARSER_PROMPT_TEMPLATE.format(record=text)` (src/agents.py line 38). -/
def formatPromptTemplate (text : String) : String :=
  PARSER_PROMPT_TEMPLATE_head ++ text ++ "\n"

/-- Embeds `DocumentParser.generate_content` (src/agents.py lines 33-45): formats
the prompt from the template and issues one `generate_content` call, with
the tools the model was constructed with (`[add_to_database]`,
src/agents.py line 28) and `tool_config={"function_calling_config": "ANY"}`
to force a function call.  The generative backend is the black-box `model`
parameter; the returned trace lists every request issued, in order. -/
def generate_content (model : GenRequest → GenerateContentResponse) (text : String) :
    GenerateContentResponse × List GenRequest :=
  let prompt := formatPromptTemplate text
  let request : GenRequest := ⟨prompt, [add_to_database], .ANY⟩
  (model request, [request])

/-- Embeds `DocumentParser.__call__` (src/agents.py lines 47-57): calls
`generate_content`, then reads
`response.candidates[0].content.parts[0].function_call` and returns
`to_dict(function_call)["args"]["events"]`.  Subscripting an empty
candidate or part list raises `IndexError`; a missing `"args"` or
`"events"` dictionary key raises `KeyError`.  The second component is the
trace of backend requests issued. -/
def callAgent (model : GenRequest → GenerateContentResponse) (text : String) :
    Except PyExn JValue × List GenRequest :=
  let (response, reqs) := generate_content model text
  match response.candidates with
  | [] => (.error .indexError, reqs)
  | candidate :: _ =>
    match candidate.content.parts with
    | [] => (.error .indexError, reqs)
    | part :: _ =>
      match part.function_call with
      | none => (.error .keyError, reqs)
      | some fc =>
        match fc.args.lookup "events" with
        | none => (.error .keyError, reqs)
        | some v => (.ok v, reqs)

end PipelineVerif.Agents

namespace PipelineVerif.Submission

open PipelineVerif PipelineVerif.Pdf PipelineVerif.Agents

/-- Raw PDF bytes. -/
abbrev PdfBytes : Type := List Nat

/-- Modelled from the spec: `submission.py` (line 7) imports a `DocumentAI`
class from `pdf`, but src/pdf.py defines no such class, so its body is
missing from the repository.  Per spec section 4.3, the Document Assembler's
alternate output mode runs the splitter/OCR traversal and renders the result
into a single text blob with an explicit `PAGE <n>` marker preceding each
page's concatenated block text, in page order.  `num_pages` stands for the
page count PyPDF2 reads from the bytes and `backend` for the OCR service. -/
def documentAI (num_pages : PdfBytes → Nat) (backend : Nat → Nat → Document)
    (pdf : PdfBytes) : Except PyExn (List Char) :=
  match process_document backend (num_pages pdf) with
  | .error e => .error e
  | .ok parsed =>
    .ok ((parsed.pages.zip (List.range parsed.pages.length)).flatMap
      (fun (pg, n) =>
        ("PAGE " ++ toString (n + 1) ++ "\n").toList ++
          pg.blocks.flatMap (fun b => b.text)))

mutual

/-- A deterministic JSON rendering of a decoded value, standing for
`json.dump(parsed_info, f, indent=4)` in `submission.py` (line 26); the
exact layout is immaterial, only that it is a function of the value. -/
def jsonRender : JValue → String
  | .s v => "\x22" ++ v ++ "\x22"
  | .arr vs => "[" ++ jsonRenderList vs ++ "]"
  | .obj fs => "\x7b" ++ jsonRenderFields fs ++ "\x7d"

def jsonRenderList : List JValue → String
  | [] => ""
  | [v] => jsonRender v
  | v :: vs => jsonRender v ++ ", " ++ jsonRenderList vs

def jsonRenderFields : List (String × JValue) → String
  | [] => ""
  | [(k, v)] => "\x22" ++ k ++ "\x22: " ++ jsonRender v
  | (k, v) :: fs => "\x22" ++ k ++ "\x22: " ++ jsonRender v ++ ", " ++ jsonRenderFields fs

end

/-- Embeds `main` (submission.py lines 13-30): run the (spec-modelled) `DocumentAI`
on the input PDF, parse the blob with the LLM agent, and write the decoded
result as JSON.  Returns the content of the output JSON file. -/
def main (num_pages : PdfBytes → Nat) (backend : Nat → Nat → Document)
    (model : GenRequest → GenerateContentResponse) (pdf : PdfBytes) :
    Except PyExn String :=
  match documentAI num_pages backend pdf with
  | .error e => .error e
  | .ok document =>
    match (callAgent model (String.mk document)).1 with
    | .error e => .error e
    | .ok parsed_info => .ok (jsonRender parsed_info)

end PipelineVerif.Submission

namespace PipelineVerif.Pdf

/-- A concrete OCR response for exercising `parse_document`: five
characters of text, one page, one block anchored at `[0:5]`. -/
def c2doc : Document :=
  ⟨['h', 'e', 'l', 'l', 'o'],
   [⟨[⟨⟨⟨[⟨0, 5⟩]⟩, ⟨[(0, 0), (1, 0), (1, 1), (0, 1)]⟩⟩⟩]⟩]⟩

/-- The parse of `c2doc`. -/
def c2pages : List Page :=
  [⟨[⟨[(0, 0), (1, 0), (1, 1), (0, 1)], ['h', 'e', 'l', 'l', 'o']⟩]⟩]

/-- A concrete OCR response whose only anchor ends at offset 99, far beyond
its two characters of text. -/
def c7doc : Document :=
  ⟨['a', 'b'], [⟨[⟨⟨⟨[⟨0, 99⟩]⟩, ⟨[]⟩⟩⟩]⟩]⟩

/-- A stub OCR backend: for the batch `[s, e)` it reports `e - s` pages
with no blocks. -/
def stubBackend : Nat → Nat → Document :=
  fun s e => ⟨[], List.replicate (e - s) ⟨[]⟩⟩

/-- The parsed page `stubBackend` yields for every original page. -/
def stubPage : Nat → Page := fun _ => ⟨[]⟩

/-- A block with four vertices and 21 characters of text. -/
def c9block : Block :=
  ⟨[(0, 0), (1, 0), (1, 1), (0, 1)],
   ['a', 'b', 'c', 'd', 'e', 'f', 'g', 'h', 'i', 'j', 'k', 'l', 'm', 'n',
    'o', 'p', 'q', 'r', 's', 't', 'u']⟩

end PipelineVerif.Pdf

namespace PipelineVerif.Agents

/-- A stub generative backend that returns zero candidates. -/
def emptyModel : GenRequest → GenerateContentResponse := fun _ => ⟨[]⟩

/-- A stub generative backend that returns one candidate carrying a
function call with an empty `events` array. -/
def stubModel : GenRequest → GenerateContentResponse :=
  fun _ => ⟨[⟨⟨[⟨some ⟨"add_to_database", [("events", JValue.arr [])]⟩⟩]⟩⟩]⟩

end PipelineVerif.Agents

namespace PipelineVerif

theorem pyResolve_le (len : Nat) (i : Int) : pyResolve len i ≤ len := by
  unfold pyResolve
  split
  · have : ((len : Int) + i).toNat ≤ ((len : Int)).toNat := by
      apply Int.toNat_le_toNat
      omega
    simpa using this
  · exact Nat.min_le_right _ _

theorem pySlice_length_le (s : List Char) (a b : Int) :
    (pySlice s a b).length ≤ s.length := by
  unfold pySlice
  calc ((s.take (pyResolve s.length b)).drop (pyResolve s.length a)).length
      ≤ (s.take (pyResolve s.length b)).length := by
        simp [List.length_drop]
    _ ≤ s.length := by simp [List.length_take]

theorem pySlice_empty_of_ge (s : List Char) (a b : Int)
    (hb : 0 ≤ b) (hab : b ≤ a) : pySlice s a b = [] := by
  unfold pySlice
  apply List.drop_eq_nil_of_le
  have hres : pyResolve s.length b ≤ pyResolve s.length a := by
    unfold pyResolve
    have ha : ¬ a < 0 := by omega
    have hb' : ¬ b < 0 := by omega
    simp only [ha, hb', if_false]
    have : b.toNat ≤ a.toNat := Int.toNat_le_toNat hab
    omega
  calc (s.take (pyResolve s.length b)).length
      = min (pyResolve s.length b) s.length := by simp [List.length_take]
    _ ≤ pyResolve s.length b := Nat.min_le_left _ _
    _ ≤ pyResolve s.length a := hres

end PipelineVerif

namespace PipelineVerif.Pdf

theorem batchWindows_stop (start total ceiling : Nat)
    (h : total ≤ start ∨ ceiling = 0) :
    batchWindows start total ceiling = [] := by
  rw [batchWindows, dif_neg]
  omega

theorem batchWindows_flatten (ceiling : Nat) (hc : 0 < ceiling) :
    ∀ start total, (batchWindows start total ceiling).flatMap
        (fun w => List.range' w.1 (w.2 - w.1)) = List.range' start (total - start) := by
  intro start total
  induction start, total, ceiling using batchWindows.induct with
  | case1 start total ceiling h ih =>
    rw [batchWindows, dif_pos h, List.flatMap_cons, ih h.1]
    dsimp only
    rcases le_or_lt (start + ceiling) total with hle | hlt
    · have hmin : min (start + ceiling) total = start + ceiling := by omega
      rw [hmin]
      have hlen : start + ceiling - start = ceiling := by omega
      rw [hlen, List.range'_append_1 start ceiling (total - (start + ceiling))]
      congr 1
      omega
    · have hmin : min (start + ceiling) total = total := by omega
      rw [hmin]
      have hz : total - (start + ceiling) = 0 := by omega
      rw [hz]
      simp
  | case2 start total ceiling h =>
    rw [batchWindows, dif_neg h]
    have hts : total - start = 0 := by omega
    simp [hts]

theorem batchWindows_mem_bounds (ceiling : Nat) :
    ∀ start total, ∀ w ∈ batchWindows start total ceiling,
      start ≤ w.1 ∧ w.1 < w.2 ∧ w.2 ≤ total ∧ w.2 - w.1 ≤ ceiling := by
  intro start total
  induction start, total, ceiling using batchWindows.induct with
  | case1 start total ceiling h ih =>
    rw [batchWindows, dif_pos h]
    intro w hw
    rcases List.mem_cons.mp hw with rfl | hmem
    · refine ⟨Nat.le_refl _, ?_, ?_, ?_⟩
      · dsimp only
        omega
      · dsimp only
        omega
      · dsimp only
        omega
    · have := ih w hmem
      exact ⟨by omega, this.2.1, this.2.2.1, this.2.2.2⟩
  | case2 start total ceiling h =>
    rw [batchWindows, dif_neg h]
    intro w hw
    simp at hw

theorem batchWindows_getLast (ceiling : Nat) (hc : 0 < ceiling) :
    ∀ start total, start < total →
      ∃ lw, (batchWindows start total ceiling).getLast? = some lw ∧
        lw.2 = total ∧
        lw.2 - lw.1 = (if (total - start) % ceiling = 0 then ceiling else (total - start) % ceiling) := by
  intro start total
  induction start, total, ceiling using batchWindows.induct with
  | case1 start total ceiling h ih =>
    intro _
    rw [batchWindows, dif_pos h]
    rcases le_or_lt total (start + ceiling) with hle | hlt
    · rw [batchWindows_stop (start + ceiling) total ceiling (by omega)]
      refine ⟨(start, min (start + ceiling) total), by simp, by omega, ?_⟩
      have hmin : min (start + ceiling) total = total := by omega
      rw [hmin]
      dsimp only
      rcases lt_or_ge (total - start) ceiling with hsmall | hbig
      · have hmod : (total - start) % ceiling = total - start := Nat.mod_eq_of_lt hsmall
        rw [hmod]
        have hne : total - start ≠ 0 := by omega
        simp [hne]
      · have heq : total - start = ceiling := by omega
        rw [heq]
        simp [Nat.mod_self]
    · obtain ⟨lw, hlast, hend, hlen⟩ := ih h.1 hlt
      refine ⟨lw, ?_, hend, ?_⟩
      · cases hbw : batchWindows (start + ceiling) total ceiling with
        | nil =>
          rw [hbw] at hlast
          simp at hlast
        | cons b bs =>
          rw [hbw] at hlast
          rw [List.getLast?_cons_cons]
          exact hlast
      · have harith : total - start = (total - (start + ceiling)) + ceiling := by omega
        rw [harith, Nat.add_mod_right]
        exact hlen
  | case2 start total ceiling h =>
    intro hlt
    exact absurd ⟨hc, hlt⟩ h

theorem batchWindows_length_dvd (ceiling : Nat) (hc : 0 < ceiling) :
    ∀ start total, ceiling ∣ (total - start) →
      (batchWindows start total ceiling).length = (total - start) / ceiling := by
  intro start total
  induction start, total, ceiling using batchWindows.induct with
  | case1 start total ceiling h ih =>
    intro hdvd
    rw [batchWindows, dif_pos h, List.length_cons]
    have hck : ceiling ≤ total - start := by
      rcases hdvd with ⟨k, hk⟩
      rcases k with _ | k
      · omega
      · have : ceiling * (k + 1) = ceiling * k + ceiling := by ring
        omega
    have hdvd' : ceiling ∣ (total - (start + ceiling)) := by
      rcases hdvd with ⟨k, hk⟩
      refine ⟨k - 1, ?_⟩
      rcases k with _ | k
      · omega
      · have hkk : ceiling * (k + 1) = ceiling * k + ceiling := by ring
        simp only [Nat.succ_sub_one]
        omega
    rw [ih h.1 hdvd']
    have harith : total - start = (total - (start + ceiling)) + ceiling := by omega
    rw [harith, Nat.add_div_right _ h.1]
  | case2 start total ceiling h =>
    intro _
    rw [batchWindows, dif_neg h]
    have hts : total - start = 0 := by omega
    simp [hts]

theorem batchWindows_full_dvd (ceiling : Nat) (hc : 0 < ceiling) :
    ∀ start total, ceiling ∣ (total - start) →
      ∀ w ∈ batchWindows start total ceiling, w.2 - w.1 = ceiling := by
  intro start total
  induction start, total, ceiling using batchWindows.induct with
  | case1 start total ceiling h ih =>
    intro hdvd w hw
    rw [batchWindows, dif_pos h] at hw
    have hck : ceiling ≤ total - start := by
      rcases hdvd with ⟨k, hk⟩
      rcases k with _ | k
      · omega
      · have : ceiling * (k + 1) = ceiling * k + ceiling := by ring
        omega
    rcases List.mem_cons.mp hw with rfl | hmem
    · dsimp only
      omega
    · have hdvd' : ceiling ∣ (total - (start + ceiling)) := by
        rcases hdvd with ⟨k, hk⟩
        refine ⟨k - 1, ?_⟩
        rcases k with _ | k
        · omega
        · have hkk : ceiling * (k + 1) = ceiling * k + ceiling := by ring
          simp only [Nat.succ_sub_one]
          omega
      exact ih h.1 hdvd' w hmem
  | case2 start total ceiling h =>
    intro _ w hw
    rw [batchWindows, dif_neg h] at hw
    simp at hw

theorem get_text_ok (document : Document) (anchor : TextAnchor) (text : List Char)
    (h : get_text document anchor = .ok text) :
    ∃ seg, anchor.text_segments.head? = some seg ∧
      text = pySlice document.text seg.start_index seg.end_index := by
  unfold get_text at h
  cases hseg : anchor.text_segments with
  | nil =>
    rw [hseg] at h
    simp at h
  | cons seg tl =>
    rw [hseg] at h
    simp only [Except.ok.injEq] at h
    exact ⟨seg, rfl, h.symm⟩

theorem parse_blocks_ok (document : Document) :
    ∀ (bs : List DocBlock) (out : List Block), parse_blocks document bs = .ok out →
      out.length = bs.length ∧
      ∀ j blk, out.get? j = some blk →
        ∃ dblk seg, bs.get? j = some dblk ∧
          dblk.layout.text_anchor.text_segments.head? = some seg ∧
          blk.text = pySlice document.text seg.start_index seg.end_index ∧
          blk.vertices = dblk.layout.bounding_poly.normalized_vertices := by
  intro bs
  induction bs with
  | nil =>
    intro out h
    simp only [parse_blocks, Except.ok.injEq] at h
    subst h
    exact ⟨rfl, by intro j blk hblk; simp at hblk⟩
  | cons b bs ih =>
    intro out h
    rw [parse_blocks] at h
    cases hres : get_text document b.layout.text_anchor with
    | error e =>
      rw [hres] at h
      simp at h
    | ok text =>
      rw [hres] at h
      cases hrec : parse_blocks document bs with
      | error e =>
        rw [hrec] at h
        simp at h
      | ok rest =>
        rw [hrec] at h
        simp only [Except.ok.injEq] at h
        subst h
        obtain ⟨hlen, hpt⟩ := ih rest hrec
        refine ⟨by simp [hlen], ?_⟩
        intro j blk hblk
        cases j with
        | zero =>
          simp only [List.get?_cons_zero, Option.some.injEq] at hblk
          subst hblk
          obtain ⟨seg, hhead, htext⟩ := get_text_ok document _ text hres
          exact ⟨b, seg, rfl, hhead, htext, rfl⟩
        | succ j =>
          simp only [List.get?_cons_succ] at hblk
          exact hpt j blk hblk

theorem parse_pages_ok (document : Document) :
    ∀ (dps : List DocPage) (out : List Page), parse_pages document dps = .ok out →
      out.length = dps.length ∧
      ∀ i pg, out.get? i = some pg →
        ∃ dp, dps.get? i = some dp ∧ parse_blocks document dp.blocks = .ok pg.blocks := by
  intro dps
  induction dps with
  | nil =>
    intro out h
    simp only [parse_pages, Except.ok.injEq] at h
    subst h
    exact ⟨rfl, by intro i pg hpg; simp at hpg⟩
  | cons p ps ih =>
    intro out h
    rw [parse_pages] at h
    cases hres : parse_blocks document p.blocks with
    | error e =>
      rw [hres] at h
      simp at h
    | ok blocks =>
      rw [hres] at h
      cases hrec : parse_pages document ps with
      | error e =>
        rw [hrec] at h
        simp at h
      | ok rest =>
        rw [hrec] at h
        simp only [Except.ok.injEq] at h
        subst h
        obtain ⟨hlen, hpt⟩ := ih rest hrec
        refine ⟨by simp [hlen], ?_⟩
        intro i pg hpg
        cases i with
        | zero =>
          simp only [List.get?_cons_zero, Option.some.injEq] at hpg
          subst hpg
          exact ⟨p, rfl, hres⟩
        | succ i =>
          simp only [List.get?_cons_succ] at hpg
          exact ih rest hrec |>.2 i pg hpg

theorem processLoop_ok (backend : Nat → Nat → Document) (g : Nat × Nat → List Page) :
    ∀ ws : List (Nat × Nat),
      (∀ w ∈ ws, process_batch backend w.1 w.2 = .ok (g w)) →
      processLoop backend ws = .ok (ws.flatMap g) := by
  intro ws
  induction ws with
  | nil =>
    intro _
    rfl
  | cons w ws ih =>
    intro hall
    rw [processLoop, hall w (by simp), ih (fun x hx => hall x (by simp [hx]))]
    simp

theorem parse_pages_replicate (document : Document) (n : Nat) :
    parse_pages document (List.replicate n ⟨[]⟩) = .ok (List.replicate n ⟨[]⟩) := by
  induction n with
  | zero => rfl
  | succ n ih =>
    rw [List.replicate_succ, parse_pages]
    have hb : parse_blocks document (DocPage.mk []).blocks = .ok [] := rfl
    rw [hb, ih, List.replicate_succ]

end PipelineVerif.Pdf

namespace PipelineVerifClaims

open PipelineVerif PipelineVerif.Pdf

/-- C1: for every `total_pages > 0` and `ceiling > 0` (the code fixes the
ceiling at 15), the page windows of the batching loop cover
`[0, total_pages)` contiguously and exhaustively with no overlap and no
gaps (their concatenated page ranges are exactly `0, ..., total_pages - 1`),
every window has length at most `ceiling` and is nonempty, the final window
has length `total_pages % ceiling` (or the full `ceiling` when evenly
divisible), and when `total_pages` is divisible by `ceiling` there are
exactly `total_pages / ceiling` windows, each of full length, with no
trailing empty window. -/
theorem c1_splitter_partition (total ceiling : Nat)
    (ht : 0 < total) (hc : 0 < ceiling) :
    ((splitWindows total ceiling).flatMap (fun w => List.range' w.1 (w.2 - w.1))
        = List.range total) ∧
    (∀ w ∈ splitWindows total ceiling, w.2 - w.1 ≤ ceiling) ∧
    (∀ w ∈ splitWindows total ceiling, w.1 < w.2) ∧
    (∃ lw, (splitWindows total ceiling).getLast? = some lw ∧
      lw.2 - lw.1 = (if total % ceiling = 0 then ceiling else total % ceiling)) ∧
    (total % ceiling = 0 → (splitWindows total ceiling).length = total / ceiling ∧
      ∀ w ∈ splitWindows total ceiling, w.2 - w.1 = ceiling) := by
  refine ⟨?_, ?_, ?_, ?_, ?_⟩
  · have := batchWindows_flatten ceiling hc 0 total
    simpa [splitWindows, List.range_eq_range'] using this
  · intro w hw
    exact (batchWindows_mem_bounds ceiling 0 total w hw).2.2.2
  · intro w hw
    exact (batchWindows_mem_bounds ceiling 0 total w hw).2.1
  · obtain ⟨lw, hlast, _, hlen⟩ := batchWindows_getLast ceiling hc 0 total ht
    exact ⟨lw, hlast, by simpa using hlen⟩
  · intro hmod
    have hdvd : ceiling ∣ (total - 0) := by
      simpa using (Nat.dvd_of_mod_eq_zero hmod)
    constructor
    · have := batchWindows_length_dvd ceiling hc 0 total hdvd
      simpa [splitWindows] using this
    · intro w hw
      exact batchWindows_full_dvd ceiling hc 0 total hdvd w hw

/-- Witness for C1 at `total_pages = 30`, `ceiling = 15`. -/
theorem c1_splitter_partition_witness :
    0 < 30 ∧ 0 < 15 ∧
    (((splitWindows 30 15).flatMap (fun w => List.range' w.1 (w.2 - w.1))
        = List.range 30) ∧
    (∀ w ∈ splitWindows 30 15, w.2 - w.1 ≤ 15) ∧
    (∀ w ∈ splitWindows 30 15, w.1 < w.2) ∧
    (∃ lw, (splitWindows 30 15).getLast? = some lw ∧
      lw.2 - lw.1 = (if 30 % 15 = 0 then 15 else 30 % 15)) ∧
    (30 % 15 = 0 → (splitWindows 30 15).length = 30 / 15 ∧
      ∀ w ∈ splitWindows 30 15, w.2 - w.1 = 15)) :=
  ⟨by decide, by decide, c1_splitter_partition 30 15 (by decide) (by decide)⟩

/-- C2: every `Block` built by `parse_document` carries as text exactly the
Python slice of the backend's document-wide text at its declared first
text-segment offsets — sliced directly from the returned text, never
re-derived. -/
theorem c2_block_text_is_anchor_slice (document : Document) (pages : List Page)
    (h : parse_document document = .ok pages) :
    pages.length = document.pages.length ∧
    ∀ i pg, pages.get? i = some pg →
      ∃ dp, document.pages.get? i = some dp ∧
        pg.blocks.length = dp.blocks.length ∧
        ∀ j blk, pg.blocks.get? j = some blk →
          ∃ dblk seg, dp.blocks.get? j = some dblk ∧
            dblk.layout.text_anchor.text_segments.head? = some seg ∧
            blk.text = pySlice document.text seg.start_index seg.end_index := by
  obtain ⟨hlen, hpt⟩ := parse_pages_ok document document.pages pages h
  refine ⟨hlen, ?_⟩
  intro i pg hpg
  obtain ⟨dp, hdp, hblocks⟩ := hpt i pg hpg
  obtain ⟨hblen, hbpt⟩ := parse_blocks_ok document dp.blocks pg.blocks hblocks
  refine ⟨dp, hdp, hblen, ?_⟩
  intro j blk hblk
  obtain ⟨dblk, seg, hdblk, hhead, htext, _⟩ := hbpt j blk hblk
  exact ⟨dblk, seg, hdblk, hhead, htext⟩

/-- Witness for C2 at a one-page, one-block OCR response. -/
theorem c2_block_text_is_anchor_slice_witness :
    parse_document c2doc = .ok c2pages ∧
    (c2pages.length = c2doc.pages.length ∧
     ∀ i pg, c2pages.get? i = some pg →
       ∃ dp, c2doc.pages.get? i = some dp ∧
         pg.blocks.length = dp.blocks.length ∧
         ∀ j blk, pg.blocks.get? j = some blk →
           ∃ dblk seg, dp.blocks.get? j = some dblk ∧
             dblk.layout.text_anchor.text_segments.head? = some seg ∧
             blk.text = pySlice c2doc.text seg.start_index seg.end_index) :=
  ⟨rfl, c2_block_text_is_anchor_slice c2doc c2pages rfl⟩

/-- C4: when every batch parses into exactly the pages of its window in
order (one `Page` per original page, the OCR port model), the assembled
`ParsedDocument` places original page `i` at index `i`: batches are
appended in window order and the global page order is preserved. -/
theorem c4_assembler_preserves_page_order (backend : Nat → Nat → Document)
    (origPage : Nat → Page) (total_pages : Nat)
    (hb : ∀ s e, process_batch backend s e =
      .ok ((List.range' s (e - s)).map origPage)) :
    ∃ pd, process_document backend total_pages = .ok pd ∧
      pd.pages = (List.range total_pages).map origPage ∧
      pd.pages.length = total_pages ∧
      ∀ i, i < total_pages → pd.pages.get? i = some (origPage i) := by
  have hloop := processLoop_ok backend
    (fun w => (List.range' w.1 (w.2 - w.1)).map origPage)
    (splitWindows total_pages MAX_PAGES_PER_REQUEST)
    (fun w _ => hb w.1 w.2)
  have hflat : (splitWindows total_pages MAX_PAGES_PER_REQUEST).flatMap
      (fun w => (List.range' w.1 (w.2 - w.1)).map origPage)
      = (List.range total_pages).map origPage := by
    rw [← List.map_flatMap]
    simp only [splitWindows]
    rw [batchWindows_flatten MAX_PAGES_PER_REQUEST (by decide) 0 total_pages]
    simp [List.range_eq_range']
  refine ⟨⟨(List.range total_pages).map origPage⟩, ?_, rfl, by simp, ?_⟩
  · unfold process_document
    rw [hloop, hflat]
  · intro i hi
    simp [List.get?_map, List.get?_range, hi]

/-- Witness for C4: a stub backend of block-free pages, 32 pages. -/
theorem c4_assembler_preserves_page_order_witness :
    (∀ s e, process_batch stubBackend s e =
      .ok ((List.range' s (e - s)).map stubPage)) ∧
    (∃ pd, process_document stubBackend 32 = .ok pd ∧
      pd.pages = (List.range 32).map stubPage ∧
      pd.pages.length = 32 ∧
      ∀ i, i < 32 → pd.pages.get? i = some (stubPage i)) := by
  have hb : ∀ s e, process_batch stubBackend s e =
      .ok ((List.range' s (e - s)).map stubPage) := by
    intro s e
    have hrepl : (List.range' s (e - s)).map stubPage
        = List.replicate (e - s) (⟨[]⟩ : Page) := by
      show (List.range' s (e - s)).map (fun _ => (⟨[]⟩ : Page)) = _
      rw [List.map_const', List.length_range']
    rw [hrepl]
    show parse_document (stubBackend s e) = _
    unfold parse_document stubBackend
    exact parse_pages_replicate _ (e - s)
  exact ⟨hb, c4_assembler_preserves_page_order stubBackend stubPage 32 hb⟩

/-- C6 counterexample: at `total_pages = 0` (with the code's fixed ceiling
of 15) the batching loop returns a window sequence — the empty one — and
does not fail. -/
theorem c6_counterexample_no_failure : splitWindows 0 15 = [] :=
  batchWindows_stop 0 0 15 (by omega)

/-- C6 amended: the code performs no `InvalidInput` validation.  For
`total_pages = 0` (page counts are never negative, so `total_pages ≤ 0`
means `= 0`) the batching loop yields no windows and `process_document`
succeeds with an empty `ParsedDocument`; the ceiling is fixed at
`MAX_PAGES_PER_REQUEST = 15 > 0`, so `ceiling ≤ 0` cannot arise. -/
theorem c6_no_input_validation (backend : Nat → Nat → Document) :
    process_document backend 0 = .ok ⟨[]⟩ ∧ 0 < MAX_PAGES_PER_REQUEST := by
  constructor
  · unfold process_document
    rw [show splitWindows 0 MAX_PAGES_PER_REQUEST = []
      from batchWindows_stop 0 0 _ (by omega)]
    rfl
  · decide

/-- C7 counterexample: the only anchor of `c7doc` ends at offset 99 while
the returned text has 2 characters, yet the adapter produces a `Block`
(text clamped to `"ab"`) instead of failing. -/
theorem c7_counterexample_block_produced :
    ((c7doc.text.length : Int) < 99) ∧
    parse_document c7doc = .ok [⟨[⟨[], ['a', 'b']⟩]⟩] :=
  ⟨by decide, rfl⟩

/-- C7 amended: for an anchor whose first-segment offsets lie outside the
bounds of the returned text, the OCR Adapter does not fail: `get_text`
returns the Python-clamped slice (truncated or empty, never longer than
the text) and a `Block` is still produced from it. -/
theorem c7_out_of_bounds_clamped (document : Document) (anchor : TextAnchor)
    (seg : TextSegment) (hseg : anchor.text_segments.head? = some seg)
    (hoob : seg.start_index < 0 ∨ seg.end_index < 0 ∨
      (document.text.length : Int) < seg.start_index ∨
      (document.text.length : Int) < seg.end_index) :
    get_text document anchor =
      .ok (pySlice document.text seg.start_index seg.end_index) ∧
    (pySlice document.text seg.start_index seg.end_index).length ≤
      document.text.length := by
  cases hsegs : anchor.text_segments with
  | nil =>
    rw [hsegs] at hseg
    simp at hseg
  | cons s tl =>
    rw [hsegs] at hseg
    simp only [List.head?_cons, Option.some.injEq] at hseg
    subst hseg
    refine ⟨?_, pySlice_length_le _ _ _⟩
    unfold get_text
    rw [hsegs]

/-- Witness for the amended C7 at `c7doc` and its `[0:99]` anchor. -/
theorem c7_out_of_bounds_clamped_witness :
    ((⟨[⟨0, 99⟩]⟩ : TextAnchor).text_segments.head? = some ⟨0, 99⟩) ∧
    ((0 : Int) < 0 ∨ (99 : Int) < 0 ∨ (c7doc.text.length : Int) < 0 ∨
      (c7doc.text.length : Int) < 99) ∧
    (get_text c7doc ⟨[⟨0, 99⟩]⟩ =
        .ok (pySlice c7doc.text 0 99) ∧
      (pySlice c7doc.text 0 99).length ≤ c7doc.text.length) :=
  ⟨rfl, by decide,
    c7_out_of_bounds_clamped c7doc ⟨[⟨0, 99⟩]⟩ ⟨0, 99⟩ rfl (by decide)⟩

/-- C10: for every document text and every anchor with at least one text
segment, `get_text` totally returns the Python slice
`document.text[start_index:end_index]` of the first segment without
raising, for all integer offsets; the result never exceeds the text length
(offsets beyond the bounds truncate), and a nonnegative `end_index` at or
below `start_index` yields the empty string. -/
theorem c10_get_text_total (document : Document) (anchor : TextAnchor)
    (seg : TextSegment) (hseg : anchor.text_segments.head? = some seg) :
    get_text document anchor =
      .ok (pySlice document.text seg.start_index seg.end_index) ∧
    (pySlice document.text seg.start_index seg.end_index).length ≤
      document.text.length ∧
    (0 ≤ seg.end_index → seg.end_index ≤ seg.start_index →
      pySlice document.text seg.start_index seg.end_index = []) := by
  cases hsegs : anchor.text_segments with
  | nil =>
    rw [hsegs] at hseg
    simp at hseg
  | cons s tl =>
    rw [hsegs] at hseg
    simp only [List.head?_cons, Option.some.injEq] at hseg
    subst hseg
    refine ⟨?_, pySlice_length_le _ _ _,
      fun h1 h2 => pySlice_empty_of_ge _ _ _ h1 h2⟩
    unfold get_text
    rw [hsegs]

/-- Witness for C10 at a start index past the end index. -/
theorem c10_get_text_total_witness :
    ((⟨[⟨7, 3⟩]⟩ : TextAnchor).text_segments.head? = some ⟨7, 3⟩) ∧
    (get_text ⟨['a', 'b'], []⟩ ⟨[⟨7, 3⟩]⟩ =
        .ok (pySlice ['a', 'b'] 7 3) ∧
      (pySlice ['a', 'b'] 7 3).length ≤ (['a', 'b'] : List Char).length ∧
      (0 ≤ (3 : Int) → (3 : Int) ≤ 7 → pySlice ['a', 'b'] 7 3 = [])) :=
  ⟨rfl, c10_get_text_total ⟨['a', 'b'], []⟩ ⟨[⟨7, 3⟩]⟩ ⟨7, 3⟩ rfl⟩

/-- C9 counterexample: for a block whose text has 21 characters, the label
`draw_block` inserts is the 20-character truncation plus `"..."` — 23
characters, more than the 20 the claim allows. -/
theorem c9_counterexample_label_exceeds_20 :
    ∃ r label, draw_block 100 100 c9block =
        .ok [DrawCmd.drawRect r, DrawCmd.insertText r.x0 (r.y0 - 5) label] ∧
      20 < label.length := by
  refine ⟨⟨0 * 100, 0 * 100, 1 * 100, 1 * 100⟩,
    c9block.text.take 20 ++ [chr46, chr46, chr46], rfl, by decide⟩

/-- C9 amended: for every block with vertices at positions 0 and 2,
`draw_block` draws the rectangle whose opposite corners are `vertices[0]`
and `vertices[2]` scaled from normalized to page-pixel coordinates, and
places 5 units above its top-left corner a label made of the first at most
20 characters of the block text followed by `"..."` — so of at most 23
characters, not 20. -/
theorem c9_draw_block_geometry (pw ph : ℚ) (block : Block)
    (x0 y0 x1 y1 : ℚ)
    (h0 : block.vertices.get? 0 = some (x0, y0))
    (h2 : block.vertices.get? 2 = some (x1, y1)) :
    draw_block pw ph block = .ok
      [DrawCmd.drawRect ⟨x0 * pw, y0 * ph, x1 * pw, y1 * ph⟩,
       DrawCmd.insertText (x0 * pw) (y0 * ph - 5)
         (block.text.take 20 ++ [chr46, chr46, chr46])] ∧
    (block.text.take 20 ++ [chr46, chr46, chr46]).length ≤ 23 := by
  constructor
  · unfold draw_block pyIndex
    rw [h0, h2]
  · simp only [List.length_append, List.length_take, List.length_cons,
      List.length_nil]
    omega

/-- Witness for the amended C9 at `c9block`. -/
theorem c9_draw_block_geometry_witness :
    (c9block.vertices.get? 0 = some (0, 0)) ∧
    (c9block.vertices.get? 2 = some (1, 1)) ∧
    (draw_block 2 3 c9block = .ok
      [DrawCmd.drawRect ⟨0 * 2, 0 * 3, 1 * 2, 1 * 3⟩,
       DrawCmd.insertText (0 * 2) (0 * 3 - 5)
         (c9block.text.take 20 ++ [chr46, chr46, chr46])] ∧
    (c9block.text.take 20 ++ [chr46, chr46, chr46]).length ≤ 23) :=
  ⟨rfl, rfl, c9_draw_block_geometry 2 3 c9block 0 0 1 1 rfl rfl⟩

end PipelineVerifClaims

namespace PipelineVerifClaims2

open PipelineVerif PipelineVerif.Pdf PipelineVerif.Agents PipelineVerif.Submission

theorem callAgent_trace (model : GenRequest → GenerateContentResponse)
    (text : String) :
    (callAgent model text).2 = (generate_content model text).2 := by
  unfold callAgent
  dsimp only [generate_content]
  cases hcand : (model ⟨formatPromptTemplate text, [add_to_database],
      FunctionCallingConfig.ANY⟩).candidates with
  | nil => rfl
  | cons c cs =>
    dsimp only
    cases hparts : c.content.parts with
    | nil => rfl
    | cons p ps =>
      dsimp only
      cases hfc : p.function_call with
      | none => rfl
      | some fc =>
        dsimp only
        cases hlk : fc.args.lookup "events" with
        | none => rfl
        | some v => rfl

/-- C3: when the generative backend's response has zero candidates, a first
candidate whose content has no parts or whose first part carries no
function call, or a function-call payload with no `events` key,
`DocumentParser.__call__` raises an exception (`IndexError`/`KeyError`,
the spec's `ExtractionFailed`) and never returns a value — in particular
never a silently empty event list. -/
theorem c3_extractor_fails_not_empty
    (model : GenRequest → GenerateContentResponse) (text : String)
    (h : (generate_content model text).1.candidates = [] ∨
      ∃ c cs, (generate_content model text).1.candidates = c :: cs ∧
        (c.content.parts = [] ∨
         ∃ p ps, c.content.parts = p :: ps ∧
           (p.function_call = none ∨
            ∃ fc, p.function_call = some fc ∧
              fc.args.lookup "events" = none))) :
    (∃ e, (callAgent model text).1 = .error e) ∧
    ∀ v, (callAgent model text).1 ≠ .ok v := by
  have key : ∃ e, (callAgent model text).1 = .error e := by
    dsimp only [generate_content] at h
    unfold callAgent
    dsimp only [generate_content]
    rcases h with h0 | ⟨c, cs, hc, hrest⟩
    · rw [h0]
      exact ⟨.indexError, rfl⟩
    · rw [hc]
      dsimp only
      rcases hrest with hp0 | ⟨p, ps, hp, hfcrest⟩
      · rw [hp0]
        exact ⟨.indexError, rfl⟩
      · rw [hp]
        dsimp only
        rcases hfcrest with hnone | ⟨fc, hfc, hlk⟩
        · rw [hnone]
          exact ⟨.keyError, rfl⟩
        · rw [hfc]
          dsimp only
          rw [hlk]
          exact ⟨.keyError, rfl⟩
  refine ⟨key, ?_⟩
  intro v hv
  obtain ⟨e, he⟩ := key
  rw [he] at hv
  exact Except.noConfusion hv

/-- Witness for C3: a stub backend returning zero candidates. -/
theorem c3_extractor_fails_not_empty_witness :
    ((generate_content emptyModel "").1.candidates = [] ∨
      ∃ c cs, (generate_content emptyModel "").1.candidates = c :: cs ∧
        (c.content.parts = [] ∨
         ∃ p ps, c.content.parts = p :: ps ∧
           (p.function_call = none ∨
            ∃ fc, p.function_call = some fc ∧
              fc.args.lookup "events" = none))) ∧
    ((∃ e, (callAgent emptyModel "").1 = .error e) ∧
     ∀ v, (callAgent emptyModel "").1 ≠ .ok v) :=
  ⟨Or.inl rfl, c3_extractor_fails_not_empty emptyModel "" (Or.inl rfl)⟩

/-- C5: for every input text the agent issues exactly one
generative-backend call: its prompt is the fixed template formatted with
the text, its only tool is `add_to_database` whose parameter object holds
an `events` array of objects with the six required string fields, and its
tool configuration forces a function call (`ANY`, not `AUTO`); the result
is decoded from the first candidate's first content part's function-call
`args.events` value exactly as returned, preserving its order. -/
theorem c5_single_forced_call (model : GenRequest → GenerateContentResponse)
    (text : String) :
    (generate_content model text).2.length = 1 ∧
    (callAgent model text).2 = (generate_content model text).2 ∧
    (∀ r ∈ (generate_content model text).2,
      r.prompt = formatPromptTemplate text ∧
      r.tools = [add_to_database] ∧
      r.tool_config = .ANY ∧ r.tool_config ≠ .AUTO) ∧
    add_to_database.name = "add_to_database" ∧
    add_to_database.parameters.type_ = .OBJECT ∧
    add_to_database.parameters.properties = [("events", events)] ∧
    events.type_ = .ARRAY ∧
    events.items = some event ∧
    event.type_ = .OBJECT ∧
    event.required = ["date", "description", "medical_findings", "diagnoses",
      "new_orders", "follow_up_actions"] ∧
    (∀ f ∈ event.required, event.properties.lookup f = some stringSchema) ∧
    stringSchema.type_ = .STRING ∧
    (∀ c cs p ps fc v,
      (model ⟨formatPromptTemplate text, [add_to_database],
        FunctionCallingConfig.ANY⟩).candidates = c :: cs →
      c.content.parts = p :: ps →
      p.function_call = some fc →
      fc.args.lookup "events" = some v →
      (callAgent model text).1 = .ok v) := by
  refine ⟨rfl, callAgent_trace model text, ?_, rfl, rfl, rfl, rfl, rfl, rfl,
    rfl, ?_, rfl, ?_⟩
  · intro r hr
    dsimp only [generate_content] at hr
    rw [List.mem_singleton] at hr
    subst hr
    exact ⟨rfl, rfl, rfl, fun hx => FunctionCallingConfig.noConfusion hx⟩
  · intro f hf
    simp only [event, GSchema.required, List.mem_cons,
      List.not_mem_nil, or_false] at hf
    rcases hf with rfl | rfl | rfl | rfl | rfl | rfl
    · rfl
    · rfl
    · rfl
    · rfl
    · rfl
    · rfl
  · intro c cs p ps fc v hcand hparts hfc hlk
    unfold callAgent
    dsimp only [generate_content]
    rw [hcand]
    dsimp only
    rw [hparts]
    dsimp only
    rw [hfc]
    dsimp only
    rw [hlk]

/-- Witness for C5: a stub backend returning one function-call candidate
with an empty `events` array. -/
theorem c5_single_forced_call_witness :
    (callAgent stubModel "record text").1 = .ok (JValue.arr []) ∧
    (generate_content stubModel "record text").2.length = 1 := by
  have h := c5_single_forced_call stubModel "record text"
  exact ⟨h.2.2.2.2.2.2.2.2.2.2.2.2 _ [] _ [] _ (JValue.arr []) rfl rfl rfl rfl,
    h.1⟩

/-- C8: the full pipeline is deterministic: with the page counter, OCR
backend and generative backend all fixed deterministic stubs, two runs of
`main` on identical PDF bytes produce byte-identical JSON output file
content. -/
theorem c8_pipeline_deterministic (num_pages : PdfBytes → Nat)
    (backend : Nat → Nat → Document)
    (model : GenRequest → GenerateContentResponse)
    (bytes1 bytes2 : PdfBytes) (h : bytes1 = bytes2) :
    main num_pages backend model bytes1 = main num_pages backend model bytes2 := by
  rw [h]

/-- Witness for C8 at empty byte strings and trivial stubs. -/
theorem c8_pipeline_deterministic_witness :
    ([] : PdfBytes) = ([] : PdfBytes) ∧
    main (fun _ => 0) stubBackend stubModel [] =
      main (fun _ => 0) stubBackend stubModel [] :=
  ⟨rfl, c8_pipeline_deterministic (fun _ => 0) stubBackend stubModel [] [] rfl⟩

end PipelineVerifClaims2
